import Mathlib

/-
Verification of the node-redis-scan `RedisScan` class (redis-scan.js).

The class drives the Redis incremental-scan family of commands (SCAN /
HSCAN / SSCAN / ZSCAN) through an injected node-redis client.  We embed the
orchestration logic shallowly:

* the external store client is modelled as a function from the round-trip
  index to the response it produces (`Store`);
* one run of `eachScan` produces a trace of observable events: each command
  issued to the client, each invocation of the intermediate callback
  `eachScanCallback`, and the terminal `callback` invocation (`Event`);
* the unbounded asynchronous recursion `recursiveScan` is given explicit
  fuel; a run that exhausts its fuel simply has no terminal event yet.

Each definition mirrors a function of the source file; line references are
to redis-scan.js as published in the repository.
-/

namespace NodeRedisScan

/-- A JavaScript value appearing in the argument list of a scan command.
The source mixes numbers and strings: the initial cursor is the number `0`
(the default parameter of `recursiveScan`), later cursors are strings from
the client reply, and the COUNT value is a number. -/
inductive RVal where
  | str : String → RVal
  | num : Int → RVal
deriving DecidableEq

/-- Wire form of an argument: node-redis serializes numeric arguments with
their decimal string representation, so the initial numeric cursor `0` is
sent as the string "0". -/
def RVal.wire : RVal → String
  | RVal.str s => s
  | RVal.num n => toString n

/-- One reply of the store client to a scan command: either an error
(first argument of the node-style callback) or a pair of the next cursor
and the array of matches. -/
inductive StoreResponse where
  | failure : String → StoreResponse
  | success : String → List String → StoreResponse
deriving DecidableEq

/-- The batch of matches carried by a reply (empty for an error reply). -/
def batchOf : StoreResponse → List String
  | StoreResponse.failure _ => []
  | StoreResponse.success _ b => b

/-- Whether a reply stops the iteration of `recursiveScan`: an error stops
it (the error branch), and a success stops it exactly when the returned
next cursor is the sentinel string "0" (`if (cursor === '0')`). -/
def stops : StoreResponse → Bool
  | StoreResponse.failure _ => true
  | StoreResponse.success c _ => c = "0"

/-- The store client, modelled by the reply it gives to the n-th round
trip of a session (round trips are strictly sequential, so indexing by
round-trip number is faithful). -/
def Store : Type := Nat → StoreResponse

/-- Observable events of one `eachScan` session. -/
inductive Event where
  /-- A command was issued: `this.redisClient[method](...parameters, cb)`. -/
  | call : String → List RVal → Event
  /-- The intermediate callback was invoked: `eachScanCallback(matches)`.
  The second component records the value the callback returned; the source
  discards that value. -/
  | batch : List String → Bool → Event
  /-- The terminal callback was invoked with `(null, matchesCount)`. -/
  | doneOk : Nat → Event
  /-- The terminal callback was invoked with an error: `callback(err)`. -/
  | doneErr : String → Event
deriving DecidableEq

/-- The options object accepted by `eachScan` / `scan`.  The source reads
exactly three properties — `options.method || 'scan'`, `options.key || ''`,
`options.count || 0` — with the empty string / `0` standing for an absent
or falsy property.  A JavaScript object may carry further properties the
code never reads; `limit` models such an unrecognized extra property. -/
structure ScanOptions where
  method : String := ""
  key : String := ""
  count : Int := 0
  limit : Option Int := none
deriving DecidableEq

/-- The effective method name: `const method = options.method || 'scan'`. -/
def defaultMethod (o : ScanOptions) : String :=
  if o.method = "" then "scan" else o.method

/-- The parameter list of one scan command, from `recursiveScan`:
`let parameters = [cursor, 'MATCH', pattern]`, replaced by
`[key, cursor, 'MATCH', pattern]` when `key` is truthy (non-empty), then
`parameters.push('COUNT', count)` when `count > 0`. -/
def buildParams (key pattern : String) (count : Int) (cursor : RVal) : List RVal :=
  (if key = "" then [cursor, RVal.str "MATCH", RVal.str pattern]
   else [RVal.str key, cursor, RVal.str "MATCH", RVal.str pattern]) ++
  (if count > 0 then [RVal.str "COUNT", RVal.num count] else [])

/-- The recursive iteration of `eachScan` (the inner `recursiveScan`
closure).  `matchesCount` is the closed-over running total, `cursor` the
argument of the current invocation, and `cb` the intermediate callback,
modelled by the value it returns for a given batch (the source invokes it
and ignores the result).  Responses of the current session are consumed
from index `0` of `store`; the recursive call shifts the store.  `fuel`
bounds the number of round trips we unfold; the source recursion is
unbounded and a fuel-exhausted run simply ends without a terminal event. -/
def recursiveScan (method key pattern : String) (count : Int)
    (cb : List String → Bool) (fuel : Nat) (store : Store)
    (matchesCount : Nat) (cursor : RVal) : List Event :=
  match fuel with
  | 0 => []
  | fuel' + 1 =>
    Event.call method (buildParams key pattern count cursor) ::
      (match store 0 with
      | StoreResponse.failure e => [Event.doneErr e]
      | StoreResponse.success nextCursor matchList =>
        Event.batch matchList (cb matchList) ::
          (if nextCursor = "0" then
            [Event.doneOk (matchesCount + matchList.length)]
          else
            recursiveScan method key pattern count cb fuel'
              (fun i => store (i + 1)) (matchesCount + matchList.length)
              (RVal.str nextCursor)))

/-- The `eachScan` method: extracts `method`, `key` and `count` from the
options (with their `||` defaults), initializes the running total to `0`,
and begins the scan with the default cursor — the number `0` of
`recursiveScan(cursor = 0)`. -/
def eachScan (store : Store) (pattern : String) (options : ScanOptions)
    (cb : List String → Bool) (fuel : Nat) : List Event :=
  recursiveScan (defaultMethod options) options.key pattern options.count cb
    fuel store 0 (RVal.num 0)

/-- Replay of the two closures of `scan` over the event trace of its inner
`eachScan` session: each intermediate-callback invocation appends the
batch to the closed-over `keys` array (`keys = keys.concat(matchingKeys)`),
and the terminal callback resolves with `callback(err)` or
`callback(null, keys)`, ignoring the count. -/
def scanRun : List Event → List String → Option (Except String (List String))
  | [], _ => none
  | Event.call _ _ :: rest, keys => scanRun rest keys
  | Event.batch b _ :: rest, keys => scanRun rest (keys ++ b)
  | Event.doneOk _ :: _, keys => some (Except.ok keys)
  | Event.doneErr e :: _, _ => some (Except.error e)

/-- The `scan` method: delegates to `eachScan` with an accumulating
intermediate callback.  That callback's value is the concatenated array —
a JavaScript array is always truthy, hence `fun _ => true`.  `none` means
the session has not terminated within the given fuel. -/
def scan (store : Store) (pattern : String) (options : ScanOptions)
    (fuel : Nat) : Option (Except String (List String)) :=
  scanRun (eachScan store pattern options (fun _ => true) fuel) []

/-- The `hscan` method: `this.scan(pattern, {method: 'hscan', key: key}, callback)`. -/
def hscan (store : Store) (key pattern : String) (fuel : Nat) :
    Option (Except String (List String)) :=
  scan store pattern { method := "hscan", key := key } fuel

/-- The `eachHScan` method: `this.eachScan(pattern, {method: 'hscan', key: key}, ...)`. -/
def eachHScan (store : Store) (key pattern : String)
    (cb : List String → Bool) (fuel : Nat) : List Event :=
  eachScan store pattern { method := "hscan", key := key } cb fuel

/-- The `sscan` method: `this.scan(pattern, {method: 'sscan', key: key}, callback)`. -/
def sscan (store : Store) (key pattern : String) (fuel : Nat) :
    Option (Except String (List String)) :=
  scan store pattern { method := "sscan", key := key } fuel

/-- The `eachSScan` method: `this.eachScan(pattern, {method: 'sscan', key: key}, ...)`. -/
def eachSScan (store : Store) (key pattern : String)
    (cb : List String → Bool) (fuel : Nat) : List Event :=
  eachScan store pattern { method := "sscan", key := key } cb fuel

/-- The `zscan` method: `this.scan(pattern, {method: 'zscan', key: key}, callback)`. -/
def zscan (store : Store) (key pattern : String) (fuel : Nat) :
    Option (Except String (List String)) :=
  scan store pattern { method := "zscan", key := key } fuel

/-- The `eachZScan` method: `this.eachScan(pattern, {method: 'zscan', key: key}, ...)`. -/
def eachZScan (store : Store) (key pattern : String)
    (cb : List String → Bool) (fuel : Nat) : List Event :=
  eachScan store pattern { method := "zscan", key := key } cb fuel

/-- The commands issued during a session, in order, as (method, parameters). -/
def sessionCalls : List Event → List (String × List RVal)
  | [] => []
  | Event.call m ps :: rest => (m, ps) :: sessionCalls rest
  | Event.batch _ _ :: rest => sessionCalls rest
  | Event.doneOk _ :: rest => sessionCalls rest
  | Event.doneErr _ :: rest => sessionCalls rest

/-- The batches delivered to the intermediate callback, in order. -/
def batchArgs : List Event → List (List String)
  | [] => []
  | Event.batch b _ :: rest => b :: batchArgs rest
  | Event.call _ _ :: rest => batchArgs rest
  | Event.doneOk _ :: rest => batchArgs rest
  | Event.doneErr _ :: rest => batchArgs rest

/-- The terminal-callback invocations of a session, in order.  A faithful
session has exactly one; the trace type can represent zero or several, so
uniqueness is provable rather than built in. -/
def terminalList : List Event → List (Except String Nat)
  | [] => []
  | Event.doneOk n :: rest => Except.ok n :: terminalList rest
  | Event.doneErr e :: rest => Except.error e :: terminalList rest
  | Event.call _ _ :: rest => terminalList rest
  | Event.batch _ _ :: rest => terminalList rest

/-- Expected command list of a session of `n` round trips whose first
command carries cursor `cur`: each later command carries the string cursor
of the preceding reply.  Statement-side helper for characterizing
`sessionCalls`. -/
def expectedCalls (m k p : String) (c : Int) (store : Store) (cur : RVal) :
    Nat → List (String × List RVal)
  | 0 => []
  | n + 1 =>
    (m, buildParams k p c cur) ::
      expectedCalls m k p c (fun i => store (i + 1))
        (match store 0 with
         | StoreResponse.success c0 _ => RVal.str c0
         | StoreResponse.failure _ => cur) n

/-- Expected batch list of the first `n` successful round trips.
Statement-side helper for characterizing `batchArgs`. -/
def expectedBatches (store : Store) : Nat → List (List String)
  | 0 => []
  | n + 1 => batchOf (store 0) :: expectedBatches (fun i => store (i + 1)) n

theorem expectedCalls_length (m k p : String) (c : Int) :
    ∀ (n : Nat) (store : Store) (cur : RVal),
      (expectedCalls m k p c store cur n).length = n := by
  intro n
  induction n with
  | zero => intro store cur; rfl
  | succ n ih =>
    intro store cur
    simp only [expectedCalls, List.length_cons, ih]

theorem expectedCalls_getElem_zero (m k p : String) (c : Int)
    (store : Store) (cur : RVal) (n : Nat) (h : 0 < n) :
    (expectedCalls m k p c store cur n)[0]? = some (m, buildParams k p c cur) := by
  cases n with
  | zero => exact absurd h (Nat.lt_irrefl 0)
  | succ n => simp [expectedCalls]

theorem expectedCalls_getElem_succ (m k p : String) (c : Int) :
    ∀ (i : Nat) (n : Nat) (store : Store) (cur : RVal) (cS : String) (b : List String),
      store i = StoreResponse.success cS b → i + 1 < n →
      (expectedCalls m k p c store cur n)[i + 1]? =
        some (m, buildParams k p c (RVal.str cS)) := by
  intro i
  induction i with
  | zero =>
    intro n store cur cS b hstore hn
    cases n with
    | zero => exact absurd hn (Nat.not_lt_zero 1)
    | succ n =>
      simp only [expectedCalls, List.getElem?_cons_succ, hstore]
      exact expectedCalls_getElem_zero m k p c _ _ n (Nat.lt_of_succ_lt_succ hn)
  | succ i ih =>
    intro n store cur cS b hstore hn
    cases n with
    | zero => exact absurd hn (Nat.not_lt_zero (i + 2))
    | succ n =>
      simp only [expectedCalls, List.getElem?_cons_succ]
      exact ih n (fun j => store (j + 1)) _ cS b hstore (Nat.lt_of_succ_lt_succ hn)

theorem expectedBatches_length :
    ∀ (n : Nat) (store : Store), (expectedBatches store n).length = n := by
  intro n
  induction n with
  | zero => intro store; rfl
  | succ n ih =>
    intro store
    simp only [expectedBatches, List.length_cons, ih]

theorem expectedBatches_getElem :
    ∀ (n : Nat) (i : Nat) (store : Store), i < n →
      (expectedBatches store n)[i]? = some (batchOf (store i)) := by
  intro n
  induction n with
  | zero => intro i store hi; exact absurd hi (Nat.not_lt_zero i)
  | succ n ih =>
    intro i store hi
    cases i with
    | zero => simp [expectedBatches]
    | succ i =>
      simp only [expectedBatches, List.getElem?_cons_succ]
      exact ih i (fun j => store (j + 1)) (Nat.lt_of_succ_lt_succ hi)

theorem expectedBatches_mem :
    ∀ (n : Nat) (store : Store) (b : List String),
      b ∈ expectedBatches store n → ∃ i, i < n ∧ b = batchOf (store i) := by
  intro n
  induction n with
  | zero => intro store b hb; exact absurd hb (List.not_mem_nil b)
  | succ n ih =>
    intro store b hb
    rcases List.mem_cons.mp hb with h | h
    · exact ⟨0, Nat.succ_pos n, h⟩
    · obtain ⟨i, hi, hb'⟩ := ih (fun j => store (j + 1)) b h
      exact ⟨i + 1, Nat.succ_lt_succ hi, hb'⟩

/-- Observable behavior of `recursiveScan` does not depend on the
intermediate callback: the commands issued, the batch arguments delivered,
and the terminal invocations are the same for any two callbacks, because
the source discards the callback's return value. -/
theorem recursiveScan_cb_irrel (m k p : String) (c : Int)
    (cb cb' : List String → Bool) :
    ∀ (fuel : Nat) (store : Store) (mc : Nat) (cur : RVal),
      sessionCalls (recursiveScan m k p c cb fuel store mc cur) =
        sessionCalls (recursiveScan m k p c cb' fuel store mc cur) ∧
      batchArgs (recursiveScan m k p c cb fuel store mc cur) =
        batchArgs (recursiveScan m k p c cb' fuel store mc cur) ∧
      terminalList (recursiveScan m k p c cb fuel store mc cur) =
        terminalList (recursiveScan m k p c cb' fuel store mc cur) := by
  intro fuel
  induction fuel with
  | zero => intro store mc cur; exact ⟨rfl, rfl, rfl⟩
  | succ fuel ih =>
    intro store mc cur
    cases hs : store 0 with
    | failure e =>
      simp [recursiveScan, hs, sessionCalls, batchArgs, terminalList]
    | success c0 b0 =>
      by_cases hc : c0 = "0"
      · subst hc
        simp [recursiveScan, hs, sessionCalls, batchArgs, terminalList]
      · obtain ⟨h1, h2, h3⟩ := ih (fun i => store (i + 1)) (mc + b0.length) (RVal.str c0)
        simp [recursiveScan, hs, hc, sessionCalls, batchArgs, terminalList, h1, h2, h3]

/-- Closed form of a session that ends in store-signalled exhaustion: the
first stopping reply, at round-trip index `j`, is a success carrying the
sentinel cursor.  The session issues exactly the `j + 1` expected commands,
delivers exactly the `j + 1` expected batches, fires the terminal callback
once with the accumulated total, and its `scan`-style replay accumulates
the concatenation of the batches. -/
theorem recursiveScan_success_spec (m k p : String) (c : Int)
    (cb : List String → Bool) :
    ∀ (fuel j : Nat) (store : Store) (mc : Nat) (cur : RVal) (bj : List String),
      j < fuel →
      store j = StoreResponse.success "0" bj →
      (∀ i, i < j → stops (store i) = false) →
      sessionCalls (recursiveScan m k p c cb fuel store mc cur) =
          expectedCalls m k p c store cur (j + 1) ∧
      batchArgs (recursiveScan m k p c cb fuel store mc cur) =
          expectedBatches store (j + 1) ∧
      terminalList (recursiveScan m k p c cb fuel store mc cur) =
          [Except.ok (mc + ((expectedBatches store (j + 1)).map List.length).sum)] ∧
      ∀ keys, scanRun (recursiveScan m k p c cb fuel store mc cur) keys =
          some (Except.ok (keys ++ (expectedBatches store (j + 1)).flatten)) := by
  intro fuel
  induction fuel with
  | zero => intro j store mc cur bj hj; exact absurd hj (Nat.not_lt_zero j)
  | succ fuel ih =>
    intro j store mc cur bj hj hstore hleast
    cases j with
    | zero =>
      refine ⟨?_, ?_, ?_, ?_⟩ <;>
        simp [recursiveScan, hstore, sessionCalls, batchArgs, terminalList,
          scanRun, expectedCalls, expectedBatches, batchOf]
    | succ j =>
      have h0 : stops (store 0) = false := hleast 0 (Nat.succ_pos j)
      cases hs0 : store 0 with
      | failure e => rw [hs0] at h0; simp [stops] at h0
      | success c0 b0 =>
        have hc0 : ¬(c0 = "0") := by
          rw [hs0] at h0
          simpa [stops] using h0
        obtain ⟨hcalls, hbatches, hterm, hrun⟩ :=
          ih j (fun i => store (i + 1)) (mc + b0.length) (RVal.str c0) bj
            (Nat.lt_of_succ_lt_succ hj) hstore
            (fun i hi => hleast (i + 1) (Nat.succ_lt_succ hi))
        refine ⟨?_, ?_, ?_, ?_⟩
        · simp [recursiveScan, hs0, hc0, sessionCalls, hcalls, expectedCalls]
        · simp [recursiveScan, hs0, hc0, batchArgs, hbatches, expectedBatches, batchOf]
        · simp [recursiveScan, hs0, hc0, terminalList, hterm, expectedBatches,
            batchOf, Nat.add_assoc]
        · intro keys
          simp [recursiveScan, hs0, hc0, scanRun, hrun, expectedBatches, batchOf]

/-- Closed form of a session that ends in a client error at round-trip
index `j` (all earlier replies were non-stopping successes): the session
issues the `j + 1` expected commands, delivers only the `j` earlier
batches, fires the terminal callback once with the error unchanged, and
its `scan`-style replay surfaces only the error. -/
theorem recursiveScan_failure_spec (m k p : String) (c : Int)
    (cb : List String → Bool) :
    ∀ (fuel j : Nat) (store : Store) (mc : Nat) (cur : RVal) (e : String),
      j < fuel →
      store j = StoreResponse.failure e →
      (∀ i, i < j → stops (store i) = false) →
      sessionCalls (recursiveScan m k p c cb fuel store mc cur) =
          expectedCalls m k p c store cur (j + 1) ∧
      batchArgs (recursiveScan m k p c cb fuel store mc cur) =
          expectedBatches store j ∧
      terminalList (recursiveScan m k p c cb fuel store mc cur) =
          [Except.error e] ∧
      ∀ keys, scanRun (recursiveScan m k p c cb fuel store mc cur) keys =
          some (Except.error e) := by
  intro fuel
  induction fuel with
  | zero => intro j store mc cur e hj; exact absurd hj (Nat.not_lt_zero j)
  | succ fuel ih =>
    intro j store mc cur e hj hstore hleast
    cases j with
    | zero =>
      refine ⟨?_, ?_, ?_, ?_⟩ <;>
        simp [recursiveScan, hstore, sessionCalls, batchArgs, terminalList,
          scanRun, expectedCalls, expectedBatches]
    | succ j =>
      have h0 : stops (store 0) = false := hleast 0 (Nat.succ_pos j)
      cases hs0 : store 0 with
      | failure e' => rw [hs0] at h0; simp [stops] at h0
      | success c0 b0 =>
        have hc0 : ¬(c0 = "0") := by
          rw [hs0] at h0
          simpa [stops] using h0
        obtain ⟨hcalls, hbatches, hterm, hrun⟩ :=
          ih j (fun i => store (i + 1)) (mc + b0.length) (RVal.str c0) e
            (Nat.lt_of_succ_lt_succ hj) hstore
            (fun i hi => hleast (i + 1) (Nat.succ_lt_succ hi))
        refine ⟨?_, ?_, ?_, ?_⟩
        · simp [recursiveScan, hs0, hc0, sessionCalls, hcalls, expectedCalls]
        · simp [recursiveScan, hs0, hc0, batchArgs, hbatches, expectedBatches, batchOf]
        · simp [recursiveScan, hs0, hc0, terminalList, hterm]
        · intro keys
          simp [recursiveScan, hs0, hc0, scanRun, hrun]

/-- Every error surfaced by a session's terminal callback is a verbatim
client error: the orchestrator has no error source of its own. -/
theorem terminalList_error_from_store (m k p : String) (c : Int)
    (cb : List String → Bool) :
    ∀ (fuel : Nat) (store : Store) (mc : Nat) (cur : RVal) (e : String),
      Except.error e ∈ terminalList (recursiveScan m k p c cb fuel store mc cur) →
      ∃ i, store i = StoreResponse.failure e := by
  intro fuel
  induction fuel with
  | zero =>
    intro store mc cur e hmem
    exact absurd hmem (List.not_mem_nil _)
  | succ fuel ih =>
    intro store mc cur e hmem
    cases hs : store 0 with
    | failure e' =>
      refine ⟨0, ?_⟩
      rw [hs]
      simp [recursiveScan, hs, terminalList] at hmem
      rw [hmem]
    | success c0 b0 =>
      by_cases hc : c0 = "0"
      · subst hc
        simp [recursiveScan, hs, terminalList] at hmem
      · simp only [recursiveScan, hs, hc, if_neg, terminalList] at hmem
        obtain ⟨i, hi⟩ := ih (fun j => store (j + 1)) (mc + b0.length) (RVal.str c0) e
          (by simpa [terminalList] using hmem)
        exact ⟨i + 1, hi⟩

/-- Every command a session issues carries the single effective method name
and a parameter list of the fixed shape built by `buildParams`: some
cursor, preceded by the key exactly when the key is non-empty, followed by
MATCH and the pattern, then COUNT exactly when the count is positive. -/
theorem sessionCalls_shape (m k p : String) (c : Int)
    (cb : List String → Bool) :
    ∀ (fuel : Nat) (store : Store) (mc : Nat) (cur : RVal)
      (x : String × List RVal),
      x ∈ sessionCalls (recursiveScan m k p c cb fuel store mc cur) →
      ∃ cu, x = (m, buildParams k p c cu) := by
  intro fuel
  induction fuel with
  | zero =>
    intro store mc cur x hmem
    exact absurd hmem (List.not_mem_nil _)
  | succ fuel ih =>
    intro store mc cur x hmem
    cases hs : store 0 with
    | failure e =>
      simp [recursiveScan, hs, sessionCalls] at hmem
      exact ⟨cur, hmem⟩
    | success c0 b0 =>
      by_cases hc : c0 = "0"
      · subst hc
        simp [recursiveScan, hs, sessionCalls] at hmem
        exact ⟨cur, hmem⟩
      · simp only [recursiveScan, hs, hc, if_neg, sessionCalls] at hmem
        rcases List.mem_cons.mp (by simpa [sessionCalls] using hmem) with h | h
        · exact ⟨cur, h⟩
        · exact ih (fun j => store (j + 1)) (mc + b0.length) (RVal.str c0) x h

/-- A session with any fuel at all issues its first command, and that
command carries the cursor it was started with. -/
theorem sessionCalls_head (m k p : String) (c : Int) (cb : List String → Bool)
    (fuel : Nat) (store : Store) (mc : Nat) (cur : RVal) (h : 0 < fuel) :
    (sessionCalls (recursiveScan m k p c cb fuel store mc cur))[0]? =
      some (m, buildParams k p c cur) := by
  cases fuel with
  | zero => exact absurd h (Nat.lt_irrefl 0)
  | succ fuel =>
    cases hs : store 0 with
    | failure e => simp [recursiveScan, hs, sessionCalls]
    | success c0 b0 =>
      by_cases hc : c0 = "0"
      · subst hc
        simp [recursiveScan, hs, sessionCalls]
      · simp [recursiveScan, hs, hc, sessionCalls]

/-- A store whose single reply exhausts the scan with an empty batch. -/
def storeEmptyDone : Store := fun _ => StoreResponse.success "0" []

/-- A store replying first with a non-sentinel cursor and two matches,
then with the sentinel and one match. -/
def storeTwoRounds : Store := fun i =>
  if i = 0 then StoreResponse.success "17" ["a", "b"]
  else StoreResponse.success "0" ["c"]

/-- A store that delivers one match and then fails. -/
def storeFailSecond : Store := fun i =>
  if i = 0 then StoreResponse.success "17" ["a"]
  else StoreResponse.failure "boom"

/-- Claim C1 is false on the code.  Concrete input: the store `storeTwoRounds`
and the constantly-true intermediate callback, which returns a truthy
value already on its first invocation (recorded as the `true` component of
each `batch` event; the source discards that value).  The claim demands
that no second round trip be issued and that the terminal callback report
the total through the first batch (2); instead the session issues a second
command and reports the total over both batches (3). -/
theorem eachScan_cancel_counterexample :
    eachScan storeTwoRounds "p" {} (fun _ => true) 2 =
      [Event.call "scan" [RVal.num 0, RVal.str "MATCH", RVal.str "p"],
       Event.batch ["a", "b"] true,
       Event.call "scan" [RVal.str "17", RVal.str "MATCH", RVal.str "p"],
       Event.batch ["c"] true,
       Event.doneOk 3] := rfl

/-- Claim C1 amended: the orchestrator ignores the intermediate callback's
return value entirely.  Any two callbacks yield the same commands, the
same batch deliveries and the same terminal outcome, so a truthy return
does not cancel the iteration and the reported total always covers every
delivered batch. -/
theorem eachScan_ignores_callback_result (store : Store) (p : String)
    (o : ScanOptions) (cb cb' : List String → Bool) (fuel : Nat) :
    sessionCalls (eachScan store p o cb fuel) =
      sessionCalls (eachScan store p o cb' fuel)
    ∧ batchArgs (eachScan store p o cb fuel) =
        batchArgs (eachScan store p o cb' fuel)
    ∧ terminalList (eachScan store p o cb fuel) =
        terminalList (eachScan store p o cb' fuel) :=
  recursiveScan_cb_irrel (defaultMethod o) o.key p o.count cb cb' fuel store 0
    (RVal.num 0)

/-- Claim C2 is false on the code.  Concrete input: `limit` set to `1` and the
store `storeTwoRounds`.  The first delivered batch brings the running
total to `2 ≥ 1`, yet the session issues a second round trip and reports
total `3`: the code recognizes no `limit` option. -/
theorem eachScan_limit_counterexample :
    eachScan storeTwoRounds "p" { limit := some 1 } (fun _ => false) 2 =
      [Event.call "scan" [RVal.num 0, RVal.str "MATCH", RVal.str "p"],
       Event.batch ["a", "b"] false,
       Event.call "scan" [RVal.str "17", RVal.str "MATCH", RVal.str "p"],
       Event.batch ["c"] false,
       Event.doneOk 3] := rfl

/-- Claim C2 amended: the options object carries no recognized `limit`: the code
reads only `method`, `key` and `count`, so sessions with different `limit`
values are identical event for event, and the running total never causes
an early stop. -/
theorem eachScan_limit_irrelevant (store : Store) (p m k : String) (c : Int)
    (l l' : Option Int) (cb : List String → Bool) (fuel : Nat) :
    eachScan store p { method := m, key := k, count := c, limit := l } cb fuel =
      eachScan store p { method := m, key := k, count := c, limit := l' } cb fuel
    ∧ scan store p { method := m, key := k, count := c, limit := l } fuel =
        scan store p { method := m, key := k, count := c, limit := l' } fuel :=
  ⟨rfl, rfl⟩

/-- Claim C3 is false on the code.  Concrete input: the container-requiring
method `hscan` with no key supplied.  The session does not fail fast: it
issues a store round trip (the `call` event, with no key argument), and
its terminal signal is the ordinary success `doneOk 0`, not a
configuration error — no configuration-error kind exists in the code. -/
theorem eachScan_no_container_validation_counterexample :
    eachScan storeEmptyDone "p" { method := "hscan" } (fun _ => false) 1 =
      [Event.call "hscan" [RVal.num 0, RVal.str "MATCH", RVal.str "p"],
       Event.batch [] false,
       Event.doneOk 0] := rfl

/-- Claim C3 amended: `eachScan` performs no configuration validation.  A
container-requiring method invoked without a key still issues its first
store command — with no key prepended — and every error a session can
surface is a verbatim store error, never a locally produced one. -/
theorem eachScan_defers_missing_key_to_store (store : Store) (p : String)
    (o : ScanOptions) (cb : List String → Bool) (fuel : Nat)
    (hkey : o.key = "") (hfuel : 0 < fuel) :
    (sessionCalls (eachScan store p o cb fuel))[0]? =
      some (defaultMethod o,
        [RVal.num 0, RVal.str "MATCH", RVal.str p] ++
          (if o.count > 0 then [RVal.str "COUNT", RVal.num o.count] else []))
    ∧ ∀ e, Except.error e ∈ terminalList (eachScan store p o cb fuel) →
        ∃ i, store i = StoreResponse.failure e := by
  constructor
  · have h := sessionCalls_head (defaultMethod o) o.key p o.count cb fuel store 0
      (RVal.num 0) hfuel
    simpa [eachScan, buildParams, hkey] using h
  · intro e hmem
    exact terminalList_error_from_store (defaultMethod o) o.key p o.count cb
      fuel store 0 (RVal.num 0) e (by simpa [eachScan] using hmem)

/-- Witness: the `hscan`-without-key configuration from the counterexample
satisfies the hypotheses, and the first command carries no key. -/
theorem eachScan_defers_missing_key_to_store_witness :
    (({ method := "hscan" } : ScanOptions).key = "" ∧ 0 < 1)
    ∧ (sessionCalls
        (eachScan storeEmptyDone "p" { method := "hscan" } (fun _ => false) 1))[0]? =
        some (defaultMethod { method := "hscan" },
          [RVal.num 0, RVal.str "MATCH", RVal.str "p"] ++
            (if ({ method := "hscan" } : ScanOptions).count > 0 then
              [RVal.str "COUNT", RVal.num ({ method := "hscan" } : ScanOptions).count]
            else [])) :=
  ⟨⟨rfl, Nat.one_pos⟩,
    (eachScan_defers_missing_key_to_store storeEmptyDone "p" { method := "hscan" }
      (fun _ => false) 1 rfl Nat.one_pos).1⟩

/-- Claim C4: a session starts with the cursor argument `0` (whose wire form is
the sentinel "0"); while earlier replies are non-stopping, each command
after the first carries the string cursor returned by the preceding reply;
the session stops after the first stopping reply, at index `j`, issuing
exactly `j + 1` commands — so it terminates with a success exactly when
that reply carries the sentinel cursor, with the error otherwise — and the
terminal callback fires exactly once, with either an error or a result. -/
theorem eachScan_cursor_loop (store : Store) (p : String) (o : ScanOptions)
    (cb : List String → Bool) (fuel j : Nat)
    (hj : j < fuel) (hstop : stops (store j) = true)
    (hleast : ∀ i, i < j → stops (store i) = false) :
    (sessionCalls (eachScan store p o cb fuel)).length = j + 1
    ∧ (sessionCalls (eachScan store p o cb fuel))[0]? =
        some (defaultMethod o, buildParams o.key p o.count (RVal.num 0))
    ∧ RVal.wire (RVal.num 0) = "0"
    ∧ (∀ i cS b, store i = StoreResponse.success cS b → i + 1 ≤ j →
        (sessionCalls (eachScan store p o cb fuel))[i + 1]? =
          some (defaultMethod o, buildParams o.key p o.count (RVal.str cS)))
    ∧ (∀ cS b, store j = StoreResponse.success cS b →
        cS = "0" ∧ ∃ n, terminalList (eachScan store p o cb fuel) = [Except.ok n])
    ∧ (∀ e, store j = StoreResponse.failure e →
        terminalList (eachScan store p o cb fuel) = [Except.error e])
    ∧ ∃ r, terminalList (eachScan store p o cb fuel) = [r] := by
  cases hsj : store j with
  | failure e =>
    obtain ⟨hcalls, hb, hterm, hrun⟩ :=
      recursiveScan_failure_spec (defaultMethod o) o.key p o.count cb fuel j
        store 0 (RVal.num 0) e hj hsj hleast
    have hcalls' : sessionCalls (eachScan store p o cb fuel) =
        expectedCalls (defaultMethod o) o.key p o.count store (RVal.num 0) (j + 1) := by
      simpa [eachScan] using hcalls
    have hterm' : terminalList (eachScan store p o cb fuel) = [Except.error e] := by
      simpa [eachScan] using hterm
    refine ⟨?_, ?_, by decide, ?_, ?_, ?_, ?_⟩
    · rw [hcalls']; exact expectedCalls_length _ _ _ _ _ _ _
    · rw [hcalls']
      exact expectedCalls_getElem_zero _ _ _ _ _ _ _ (Nat.succ_pos j)
    · intro i cS b hsi hile
      rw [hcalls']
      exact expectedCalls_getElem_succ _ _ _ _ i (j + 1) store (RVal.num 0) cS b
        hsi (Nat.succ_lt_succ (Nat.lt_of_succ_le hile))
    · intro cS b hsb
      exact absurd hsb (by simp)
    · intro e' he'
      injection he' with h1
      rw [hterm', h1]
    · exact ⟨Except.error e, hterm'⟩
  | success cS b =>
    have hc : cS = "0" := by
      rw [hsj] at hstop
      simpa [stops] using hstop
    subst hc
    obtain ⟨hcalls, hb, hterm, hrun⟩ :=
      recursiveScan_success_spec (defaultMethod o) o.key p o.count cb fuel j
        store 0 (RVal.num 0) b hj hsj hleast
    have hcalls' : sessionCalls (eachScan store p o cb fuel) =
        expectedCalls (defaultMethod o) o.key p o.count store (RVal.num 0) (j + 1) := by
      simpa [eachScan] using hcalls
    have hterm' : terminalList (eachScan store p o cb fuel) =
        [Except.ok (0 + ((expectedBatches store (j + 1)).map List.length).sum)] := by
      simpa [eachScan] using hterm
    refine ⟨?_, ?_, by decide, ?_, ?_, ?_, ?_⟩
    · rw [hcalls']; exact expectedCalls_length _ _ _ _ _ _ _
    · rw [hcalls']
      exact expectedCalls_getElem_zero _ _ _ _ _ _ _ (Nat.succ_pos j)
    · intro i cS' b' hsi hile
      rw [hcalls']
      exact expectedCalls_getElem_succ _ _ _ _ i (j + 1) store (RVal.num 0) cS' b'
        hsi (Nat.succ_lt_succ (Nat.lt_of_succ_le hile))
    · intro cS' b' hsb
      refine ⟨?_, ?_⟩
      · injection hsb with h1 h2
        exact h1.symm
      · exact ⟨_, hterm'⟩
    · intro e' he'
      exact absurd he' (by simp)
    · exact ⟨_, hterm'⟩

/-- Witness for the cursor-loop theorem: a single sentinel reply. -/
theorem eachScan_cursor_loop_witness :
    (0 < 1 ∧ stops (storeEmptyDone 0) = true)
    ∧ (sessionCalls (eachScan storeEmptyDone "p" {} (fun _ => false) 1)).length = 0 + 1
    ∧ ∃ r, terminalList (eachScan storeEmptyDone "p" {} (fun _ => false) 1) = [r] := by
  have h := eachScan_cursor_loop storeEmptyDone "p" {} (fun _ => false) 1 0
    Nat.one_pos (by decide) (fun i hi => absurd hi (Nat.not_lt_zero i))
  exact ⟨⟨Nat.one_pos, by decide⟩, h.1, h.2.2.2.2.2.2⟩

/-- Claim C5: for a successful session (first stopping reply is a sentinel
success), the total reported by the terminal callback is the sum of the
lengths of the delivered batches, and `scan` resolves with exactly the
concatenation of those batches in delivery order, whose length is that
same total. -/
theorem eachScan_total_and_scan_concat (store : Store) (p : String)
    (o : ScanOptions) (cb : List String → Bool) (fuel j : Nat)
    (bj : List String) (hj : j < fuel)
    (hstore : store j = StoreResponse.success "0" bj)
    (hleast : ∀ i, i < j → stops (store i) = false) :
    terminalList (eachScan store p o cb fuel) =
      [Except.ok (((batchArgs (eachScan store p o cb fuel)).map List.length).sum)]
    ∧ scan store p o fuel =
        some (Except.ok ((batchArgs (eachScan store p o cb fuel)).flatten))
    ∧ ((batchArgs (eachScan store p o cb fuel)).flatten).length =
        ((batchArgs (eachScan store p o cb fuel)).map List.length).sum := by
  obtain ⟨hcalls, hb, hterm, hrun⟩ :=
    recursiveScan_success_spec (defaultMethod o) o.key p o.count cb fuel j
      store 0 (RVal.num 0) bj hj hstore hleast
  have hb' : batchArgs (eachScan store p o cb fuel) = expectedBatches store (j + 1) := by
    simpa [eachScan] using hb
  obtain ⟨hc2, hb2, ht2, hr2⟩ :=
    recursiveScan_success_spec (defaultMethod o) o.key p o.count (fun _ => true)
      fuel j store 0 (RVal.num 0) bj hj hstore hleast
  refine ⟨?_, ?_, ?_⟩
  · rw [hb']
    simpa [eachScan] using hterm
  · rw [hb']
    have h := hr2 []
    simpa [scan, eachScan] using h
  · rw [hb']
    simp [List.length_flatten]

/-- Witness for the total/concatenation theorem: two rounds delivering
two matches then one. -/
theorem eachScan_total_and_scan_concat_witness :
    (1 < 2 ∧ storeTwoRounds 1 = StoreResponse.success "0" ["c"]
      ∧ ∀ i, i < 1 → stops (storeTwoRounds i) = false)
    ∧ scan storeTwoRounds "p" {} 2 =
        some (Except.ok
          ((batchArgs (eachScan storeTwoRounds "p" {} (fun _ => false) 2)).flatten)) := by
  have h := eachScan_total_and_scan_concat storeTwoRounds "p" {} (fun _ => false) 2 1
    ["c"] Nat.one_lt_two (by decide) (by decide)
  exact ⟨⟨Nat.one_lt_two, by decide, by decide⟩, h.2.1⟩

/-- Claim C6: if the client fails on round trip `j + 1` (index `j`), the session
surfaces exactly that error unchanged through the terminal callback,
issues no further commands beyond the failing one, keeps every batch
delivered by the earlier successful round trips, and `scan` surfaces only
the error, discarding the accumulated sequence. -/
theorem eachScan_error_propagation (store : Store) (p : String)
    (o : ScanOptions) (cb : List String → Bool) (fuel j : Nat) (e : String)
    (hj : j < fuel) (hstore : store j = StoreResponse.failure e)
    (hleast : ∀ i, i < j → stops (store i) = false) :
    terminalList (eachScan store p o cb fuel) = [Except.error e]
    ∧ (sessionCalls (eachScan store p o cb fuel)).length = j + 1
    ∧ (batchArgs (eachScan store p o cb fuel)).length = j
    ∧ (∀ i, i < j →
        (batchArgs (eachScan store p o cb fuel))[i]? = some (batchOf (store i)))
    ∧ scan store p o fuel = some (Except.error e) := by
  obtain ⟨hcalls, hb, hterm, hrun⟩ :=
    recursiveScan_failure_spec (defaultMethod o) o.key p o.count cb fuel j
      store 0 (RVal.num 0) e hj hstore hleast
  obtain ⟨hc2, hb2, ht2, hr2⟩ :=
    recursiveScan_failure_spec (defaultMethod o) o.key p o.count (fun _ => true)
      fuel j store 0 (RVal.num 0) e hj hstore hleast
  have hb' : batchArgs (eachScan store p o cb fuel) = expectedBatches store j := by
    simpa [eachScan] using hb
  refine ⟨by simpa [eachScan] using hterm, ?_, ?_, ?_, ?_⟩
  · have hcalls' : sessionCalls (eachScan store p o cb fuel) =
        expectedCalls (defaultMethod o) o.key p o.count store (RVal.num 0) (j + 1) := by
      simpa [eachScan] using hcalls
    rw [hcalls']
    exact expectedCalls_length _ _ _ _ _ _ _
  · rw [hb']
    exact expectedBatches_length _ _
  · intro i hi
    rw [hb']
    exact expectedBatches_getElem j i store hi
  · have h := hr2 []
    simpa [scan, eachScan] using h

/-- Witness for error propagation: one successful round trip, then a
failure. -/
theorem eachScan_error_propagation_witness :
    (1 < 2 ∧ storeFailSecond 1 = StoreResponse.failure "boom"
      ∧ ∀ i, i < 1 → stops (storeFailSecond i) = false)
    ∧ terminalList (eachScan storeFailSecond "p" {} (fun _ => false) 2) =
        [Except.error "boom"]
    ∧ scan storeFailSecond "p" {} 2 = some (Except.error "boom") := by
  have h := eachScan_error_propagation storeFailSecond "p" {} (fun _ => false) 2 1
    "boom" Nat.one_lt_two (by decide) (by decide)
  exact ⟨⟨Nat.one_lt_two, by decide, by decide⟩, h.1, h.2.2.2.2⟩

/-- Claim C7: a session always issues at least one command and always delivers
at least one batch before its terminal callback; a non-stopping reply is
always followed by another command even when its batch is empty; and when
every reply up to the sentinel carries an empty batch — a pattern matching
zero elements — `scan` resolves with the empty sequence, the terminal
callback reports `0`, and every delivered batch is empty. -/
theorem eachScan_empty_batches (store : Store) (p : String) (o : ScanOptions)
    (cb : List String → Bool) (fuel j : Nat) (bj : List String)
    (hj : j < fuel) (hstore : store j = StoreResponse.success "0" bj)
    (hleast : ∀ i, i < j → stops (store i) = false) :
    1 ≤ (sessionCalls (eachScan store p o cb fuel)).length
    ∧ 1 ≤ (batchArgs (eachScan store p o cb fuel)).length
    ∧ (∀ i, i < j → i + 1 < (sessionCalls (eachScan store p o cb fuel)).length)
    ∧ ((∀ i, i ≤ j → batchOf (store i) = []) →
        scan store p o fuel = some (Except.ok [])
        ∧ terminalList (eachScan store p o cb fuel) = [Except.ok 0]
        ∧ ∀ b ∈ batchArgs (eachScan store p o cb fuel), b = []) := by
  obtain ⟨hcalls, hb, hterm, hrun⟩ :=
    recursiveScan_success_spec (defaultMethod o) o.key p o.count cb fuel j
      store 0 (RVal.num 0) bj hj hstore hleast
  obtain ⟨hc2, hb2, ht2, hr2⟩ :=
    recursiveScan_success_spec (defaultMethod o) o.key p o.count (fun _ => true)
      fuel j store 0 (RVal.num 0) bj hj hstore hleast
  have hcalls' : sessionCalls (eachScan store p o cb fuel) =
      expectedCalls (defaultMethod o) o.key p o.count store (RVal.num 0) (j + 1) := by
    simpa [eachScan] using hcalls
  have hb' : batchArgs (eachScan store p o cb fuel) =
      expectedBatches store (j + 1) := by
    simpa [eachScan] using hb
  have hlen : (sessionCalls (eachScan store p o cb fuel)).length = j + 1 := by
    rw [hcalls']; exact expectedCalls_length _ _ _ _ _ _ _
  have hblen : (batchArgs (eachScan store p o cb fuel)).length = j + 1 := by
    rw [hb']; exact expectedBatches_length _ _
  have hallnil : (∀ i, i ≤ j → batchOf (store i) = []) →
      ∀ b ∈ batchArgs (eachScan store p o cb fuel), b = [] := by
    intro hempty b hbmem
    rw [hb'] at hbmem
    obtain ⟨i, hi, hbi⟩ := expectedBatches_mem (j + 1) store b hbmem
    rw [hbi]
    exact hempty i (Nat.lt_succ_iff.mp hi)
  refine ⟨by omega, by omega, fun i hi => by omega, ?_⟩
  intro hempty
  have hnil : ∀ b ∈ batchArgs (eachScan store p o cb fuel), b = [] :=
    hallnil hempty
  refine ⟨?_, ?_, hnil⟩
  · have h := hr2 []
    have hflat : (expectedBatches store (j + 1)).flatten = [] := by
      rw [List.flatten_eq_nil_iff]
      intro l hl
      obtain ⟨i, hi, hbi⟩ := expectedBatches_mem (j + 1) store l hl
      rw [hbi]
      exact hempty i (Nat.lt_succ_iff.mp hi)
    simpa [scan, eachScan, hflat] using h
  · have hsum : ((expectedBatches store (j + 1)).map List.length).sum = 0 := by
      apply List.sum_eq_zero
      intro x hx
      obtain ⟨l, hl, hxl⟩ := List.mem_map.mp hx
      obtain ⟨i, hi, hbi⟩ := expectedBatches_mem (j + 1) store l hl
      rw [← hxl, hbi, hempty i (Nat.lt_succ_iff.mp hi)]
      rfl
    have hterm' := hterm
    rw [hsum] at hterm'
    simpa [eachScan] using hterm'

/-- Witness for the empty-batch theorem: a store matching zero elements. -/
theorem eachScan_empty_batches_witness :
    (0 < 1 ∧ storeEmptyDone 0 = StoreResponse.success "0" []
      ∧ ∀ i, i < 0 → stops (storeEmptyDone i) = false)
    ∧ 1 ≤ (batchArgs (eachScan storeEmptyDone "p" {} (fun _ => false) 1)).length
    ∧ scan storeEmptyDone "p" {} 1 = some (Except.ok []) := by
  have h := eachScan_empty_batches storeEmptyDone "p" {} (fun _ => false) 1 0 []
    Nat.one_pos rfl (fun i hi => absurd hi (Nat.not_lt_zero i))
  exact ⟨⟨Nat.one_pos, rfl, fun i hi => absurd hi (Nat.not_lt_zero i)⟩,
    h.2.1, (h.2.2.2 (fun i _ => by cases i <;> rfl)).1⟩

/-- Claim C8 is false on the code.  Concrete input: the Generic variant (no
`method`, so the operation is `scan`) with a `key` supplied.  The claim
says the container key is never prepended for the Generic variant; the
code prepends the key whenever it is a non-empty string, regardless of
variant — the first command is `scan` with `"k"` as its first positional
argument.  (The trace also shows the code appends no TYPE clause: no such
option exists.) -/
theorem eachScan_param_construction_counterexample :
    eachScan storeEmptyDone "p" { key := "k" } (fun _ => false) 1 =
      [Event.call "scan" [RVal.str "k", RVal.num 0, RVal.str "MATCH", RVal.str "p"],
       Event.batch [] false,
       Event.doneOk 0] := rfl

/-- Claim C8 amended: every command of a session is built as: the operation is
`options.method` defaulted to `scan`; the key is prepended as first
positional argument exactly when `options.key` is a non-empty string —
regardless of which operation was selected; then the cursor and the MATCH
clause with the pattern; then a COUNT clause exactly when `options.count`
is positive.  No TYPE clause is ever appended (the code has no type-filter
option). -/
theorem eachScan_call_shape (store : Store) (p : String) (o : ScanOptions)
    (cb : List String → Bool) (fuel : Nat) (x : String × List RVal)
    (hx : x ∈ sessionCalls (eachScan store p o cb fuel)) :
    x.1 = defaultMethod o
    ∧ ∃ cu, x.2 =
        (if o.key = "" then [cu, RVal.str "MATCH", RVal.str p]
         else [RVal.str o.key, cu, RVal.str "MATCH", RVal.str p]) ++
        (if o.count > 0 then [RVal.str "COUNT", RVal.num o.count] else []) := by
  obtain ⟨cu, hcu⟩ := sessionCalls_shape (defaultMethod o) o.key p o.count cb
    fuel store 0 (RVal.num 0) x (by simpa [eachScan] using hx)
  rw [hcu]
  exact ⟨rfl, ⟨cu, rfl⟩⟩

/-- Witness for the command-shape theorem: a key and a positive count. -/
theorem eachScan_call_shape_witness :
    (("scan", [RVal.str "k", RVal.num 0, RVal.str "MATCH", RVal.str "p",
        RVal.str "COUNT", RVal.num 5]) ∈
      sessionCalls (eachScan storeEmptyDone "p" { key := "k", count := 5 }
        (fun _ => false) 1))
    ∧ ("scan", [RVal.str "k", RVal.num 0, RVal.str "MATCH", RVal.str "p",
        RVal.str "COUNT", RVal.num 5]).1 =
        defaultMethod { key := "k", count := 5 } := by
  have hmem : ("scan", [RVal.str "k", RVal.num 0, RVal.str "MATCH", RVal.str "p",
      RVal.str "COUNT", RVal.num 5]) ∈
      sessionCalls (eachScan storeEmptyDone "p" { key := "k", count := 5 }
        (fun _ => false) 1) := by
    show _ ∈ [("scan", [RVal.str "k", RVal.num 0, RVal.str "MATCH", RVal.str "p",
      RVal.str "COUNT", RVal.num 5])]
    exact List.mem_singleton.mpr rfl
  exact ⟨hmem,
    (eachScan_call_shape storeEmptyDone "p" { key := "k", count := 5 }
      (fun _ => false) 1 _ hmem).1⟩

/-- Claim C9: each variant convenience method is pure partial application — its
whole observable behavior (event trace, respectively result) is
definitionally that of the generic `eachScan` / `scan` invoked with the
equivalent expanded options. -/
theorem variant_methods_delegate (store : Store) (key p : String)
    (cb : List String → Bool) (fuel : Nat) :
    eachHScan store key p cb fuel =
      eachScan store p { method := "hscan", key := key } cb fuel
    ∧ hscan store key p fuel = scan store p { method := "hscan", key := key } fuel
    ∧ eachSScan store key p cb fuel =
        eachScan store p { method := "sscan", key := key } cb fuel
    ∧ sscan store key p fuel = scan store p { method := "sscan", key := key } fuel
    ∧ eachZScan store key p cb fuel =
        eachScan store p { method := "zscan", key := key } cb fuel
    ∧ zscan store key p fuel = scan store p { method := "zscan", key := key } fuel :=
  ⟨rfl, rfl, rfl, rfl, rfl, rfl⟩

/-- Claim C10: `eachScan` validates nothing about the scan variant.  The method
string is used verbatim — defaulted to `scan` only when absent or empty —
as the name of the client operation of every issued command, and a session
with any fuel issues its first command whatever that string is: an
unrecognized variant is never detected or rejected before the call. -/
theorem eachScan_uses_method_verbatim (store : Store) (p : String)
    (o : ScanOptions) (cb : List String → Bool) (fuel : Nat) :
    (∀ x ∈ sessionCalls (eachScan store p o cb fuel), x.1 = defaultMethod o)
    ∧ (o.method = "" → defaultMethod o = "scan")
    ∧ (o.method ≠ "" → defaultMethod o = o.method)
    ∧ (0 < fuel → (sessionCalls (eachScan store p o cb fuel))[0]? =
        some (defaultMethod o, buildParams o.key p o.count (RVal.num 0))) := by
  refine ⟨?_, ?_, ?_, ?_⟩
  · intro x hx
    obtain ⟨cu, hcu⟩ := sessionCalls_shape (defaultMethod o) o.key p o.count cb
      fuel store 0 (RVal.num 0) x (by simpa [eachScan] using hx)
    rw [hcu]
  · intro h
    simp [defaultMethod, h]
  · intro h
    simp [defaultMethod, h]
  · intro h
    have := sessionCalls_head (defaultMethod o) o.key p o.count cb fuel store 0
      (RVal.num 0) h
    simpa [eachScan] using this

/-- Witness for the verbatim-method theorem: an unrecognized variant
string is passed through as the operation of the first command. -/
theorem eachScan_uses_method_verbatim_witness :
    (({ method := "flushdb" } : ScanOptions).method ≠ "" ∧ 0 < 1)
    ∧ defaultMethod { method := "flushdb" } =
        ({ method := "flushdb" } : ScanOptions).method
    ∧ (sessionCalls (eachScan storeEmptyDone "p" { method := "flushdb" }
        (fun _ => false) 1))[0]? =
        some (defaultMethod { method := "flushdb" },
          buildParams ({ method := "flushdb" } : ScanOptions).key "p"
            ({ method := "flushdb" } : ScanOptions).count (RVal.num 0)) := by
  have h := eachScan_uses_method_verbatim storeEmptyDone "p" { method := "flushdb" }
    (fun _ => false) 1
  exact ⟨⟨by decide, Nat.one_pos⟩, h.2.2.1 (by decide), h.2.2.2 Nat.one_pos⟩

end NodeRedisScan
